import Mathlib

/-!
# Verification of the weekly habit tracker client

Shallow embedding of the habit-tracker React component (`HabitTracker`):
its local view state, the remote Supabase tables (`habits`, `habit_entries`),
and the operations `getCurrentWeekStart`, `loadHabitEntries` (tracker
construction), `handleOnboardingSubmit`, `toggleHabit`, `resetWeek`,
the `onAuthStateChange` handler, `downloadStats` and `getWeeklyProgress`.

Modelling conventions:
* Calendar dates are modelled as day numbers (`Int`, days since 1970-01-01,
  which was a Thursday), so JavaScript `Date.getDay()` (0 = Sunday) becomes
  `(d + 4) % 7` and `date.setDate(date.getDate() + k)` becomes `d + k`.
  The ISO `yyyy-mm-dd` rendering of a date is abstracted by this injective
  day-number representation.
* JavaScript objects used as string-keyed maps become association lists in
  insertion order: `{...prev, [k]: v}` updates the value at an existing key
  in place and appends a new key at the end, which `setKey` below mirrors.
* Asynchronous remote calls are serialized; each operation takes the remote
  tables as input, and returns the updated local state, the updated remote
  tables, and the list of remote operations it issued (in order).  A `Bool`
  parameter `ok` says whether the awaited remote call succeeded; on failure
  the code's `catch` block only logs, so the statements after the `await`
  (the local `set*` calls) do not run.
* Row ids and `created_at` columns generated by the store are abstracted:
  habit ids come from a caller-supplied generator, entry rows are identified
  by their `(habit_id, user_id, date)` key, which is exactly what the code
  reads back.
-/

namespace HabitsTracker

/-- A row of the `habits` table / the client `Habit` interface:
`{ id, name, user_id }` (plus a generated `created_at` not read back
except for ordering, which is not modelled). -/
structure HabitRow where
  id : String
  user_id : String
  name : String
deriving DecidableEq, Repr

/-- A row of the `habit_entries` table, identified by its
`(habit_id, user_id, date)` key; the generated `id` column is never read by
the client and is omitted. -/
structure EntryRow where
  habit_id : String
  user_id : String
  date : Int
  completed : Bool
deriving DecidableEq, Repr

/-- The remote store: the two tables the component talks to. -/
structure Remote where
  habits : List HabitRow
  entries : List EntryRow
deriving DecidableEq, Repr

/-- The tracker view `HabitTracker`: `habitId → dayName → bool`, as a
string-keyed map of string-keyed maps (association lists in insertion
order, mirroring JavaScript object semantics). -/
abbrev Tracker := List (String × List (String × Bool))

/-- The component's local state: the `useState` hooks that the claims are
about (`loading` is omitted; it only gates the initial render). -/
structure AppState where
  user : Option String
  isOnboarding : Bool
  habits : List HabitRow
  tracker : Tracker
  weekStartDate : Int
  habitInputs : List String
deriving DecidableEq, Repr

/-- A remote operation issued by the client, used to record which calls an
operation makes and in which order. -/
inductive RemoteOp where
  | insertHabits (rows : List (String × String))
  | insertEntry (e : EntryRow)
  | deleteEntry (habitId uid : String) (date : Int)
  | deleteEntriesByUser (uid : String)
  | deleteHabitsByUser (uid : String)
deriving DecidableEq, Repr

/-- `const DAYS = ['Monday', ..., 'Sunday']`. -/
def DAYS : List String :=
  ["Monday", "Tuesday", "Wednesday", "Thursday", "Friday", "Saturday", "Sunday"]

/-- The characters removed by JavaScript `String.prototype.trim`:
ECMAScript WhiteSpace (TAB, VT, FF, SP, NBSP, ZWNBSP and the Unicode
space separators) together with the LineTerminators (LF, CR, LS, PS). -/
def isJsWhitespace (c : Char) : Bool :=
  c == '\x09' || c == '\x0a' || c == '\x0b' || c == '\x0c' || c == '\x0d' ||
  c == '\x20' || c == '\u00A0' || c == '\u1680' ||
  ('\u2000' ≤ c && c ≤ '\u200A') ||
  c == '\u2028' || c == '\u2029' || c == '\u202F' || c == '\u205F' ||
  c == '\u3000' || c == '\uFEFF'

/-- JavaScript `s.trim()`: strips leading and trailing whitespace.
(Modelled structurally over the character list so it evaluates in the
kernel; the Lean core `String.trim` strips the same characters on the
strings appearing here but does not reduce definitionally.) -/
def jsTrim (s : String) : String :=
  ⟨(((s.data.dropWhile isJsWhitespace).reverse.dropWhile isJsWhitespace).reverse)⟩

/-- Key lookup in a string-keyed association list (JavaScript property
access `obj[k]`, `none` standing for `undefined`). -/
def lookupKey (l : List (String × α)) (k : String) : Option α :=
  match l with
  | [] => none
  | (k', v) :: rest => if k' = k then some v else lookupKey rest k

/-- Key update `{...obj, [k]: v}`: replaces the value at an existing key in
place, appends a fresh key at the end. -/
def setKey (l : List (String × α)) (k : String) (v : α) : List (String × α) :=
  match l with
  | [] => [(k, v)]
  | (k', v') :: rest => if k' = k then (k, v) :: rest else (k', v') :: setKey rest k v

/-- `tracker[habitId]?.[day] || false`. -/
def trackerGet (t : Tracker) (habitId day : String) : Bool :=
  match lookupKey t habitId with
  | none => false
  | some m => (lookupKey m day).getD false

/-- `setTracker(prev => ({...prev, [habitId]: {...prev[habitId], [day]: v}}))`. -/
def setCell (t : Tracker) (habitId day : String) (v : Bool) : Tracker :=
  setKey t habitId (setKey ((lookupKey t habitId).getD []) day v)

/-- `DAYS.indexOf(day)` (−1 when absent), as an `Int` offset in days. -/
def dayIndex (day : String) : Int :=
  match DAYS.indexOf? day with
  | some i => (i : Int)
  | none => -1

/-- `Date.getDay()` for a day number: 0 = Sunday, …, 6 = Saturday
(1970-01-01, day 0, was a Thursday, so `getDay 0 = 4`). -/
def getDay (d : Int) : Int := (d + 4) % 7

/-- `getCurrentWeekStart`: the Monday of the week containing `today`
(`monday.setDate(today.getDate() - (today.getDay() === 0 ? 6 : today.getDay() - 1))`). -/
def getCurrentWeekStart (today : Int) : Int :=
  today - (if getDay today = 0 then 6 else getDay today - 1)

/-- `Math.round(num / den)` for nonnegative operands, `den > 0`:
JavaScript rounds half away from zero, i.e. `⌊num/den + 1/2⌋`. -/
def jsRound (num den : Nat) : Nat := (2 * num + den) / (2 * den)

/-- The `(habit_id, user_id, date)` key predicate used by the toggle delete
(`.eq('habit_id', ...).eq('user_id', ...).eq('date', ...)`) and by the
uniqueness constraint of `habit_entries`. -/
def entryMatches (e : EntryRow) (habitId uid : String) (date : Int) : Bool :=
  e.habit_id == habitId && e.user_id == uid && e.date == date

/-- The rows of `habit_entries` with the given `(habit_id, user_id, date)` key. -/
def entriesFor (r : Remote) (habitId uid : String) (date : Int) : List EntryRow :=
  r.entries.filter (fun e => entryMatches e habitId uid date)

/-- The tracker built by `loadHabitEntries` from the loaded habits, the week
start, and the fetched entry rows: for each habit and each of the 7 days it
looks up an entry with matching `habit_id` and date
(`entriesData?.find(e => e.habit_id === habit.id && e.date === dateStr)`)
and stores `entry?.completed || false`. -/
def buildTracker (userHabits : List HabitRow) (weekStart : Int)
    (entriesData : List EntryRow) : Tracker :=
  userHabits.map (fun habit =>
    (habit.id,
      DAYS.enum.map (fun p =>
        (p.2, ((entriesData.find?
            (fun e => e.habit_id == habit.id && e.date == weekStart + (p.1 : Int))).map
          (fun e => e.completed)).getD false))))

/-- `toggleHabit(habitId, day)`: guard on `user`; compute the cell's date
from `weekStartDate` and `DAYS.indexOf(day)`; read the current boolean from
the tracker (default `false`); if currently true, delete the matching entry
row(s); if currently false, insert a completed row; only after the awaited
remote call resolves (`ok = true`) flip the local boolean.  On failure the
`catch` only logs, so the local state is unchanged. -/
def toggleHabit (ok : Bool) (habitId day : String) (s : AppState) (r : Remote) :
    AppState × Remote × List RemoteOp :=
  match s.user with
  | none => (s, r, [])
  | some uid =>
    let dateStr := s.weekStartDate + dayIndex day
    let currentValue := trackerGet s.tracker habitId day
    let newValue := !currentValue
    let step :=
      if currentValue then
        ({ r with entries := r.entries.filter (fun e => !(entryMatches e habitId uid dateStr)) },
         RemoteOp.deleteEntry habitId uid dateStr)
      else
        ({ r with entries := r.entries ++ [⟨habitId, uid, dateStr, true⟩] },
         RemoteOp.insertEntry ⟨habitId, uid, dateStr, true⟩)
    if ok then
      ({ s with tracker := setCell s.tracker habitId day newValue }, step.1, [step.2])
    else
      (s, r, [step.2])

/-- `n` serialized successful `toggleHabit` calls on the same cell. -/
def toggleN (n : Nat) (habitId day : String) (s : AppState) (r : Remote) :
    AppState × Remote :=
  match n with
  | 0 => (s, r)
  | Nat.succ m =>
    let prev := toggleN m habitId day s r
    let out := toggleHabit true habitId day prev.1 prev.2
    (out.1, out.2.1)

/-- `handleOnboardingSubmit`: guard on `user`; keep the inputs whose trim is
non-empty; only when exactly 5 remain, insert 5 habit rows with trimmed
names; on success (`ok`) replace the habit list with the rows returned by
the store (ids generated by `genId`), clear the tracker, recompute the week
start, and exit onboarding; on failure alert and change nothing locally. -/
def handleOnboardingSubmit (ok : Bool) (genId : Nat → String) (today : Int)
    (s : AppState) (r : Remote) : AppState × Remote × List RemoteOp :=
  match s.user with
  | none => (s, r, [])
  | some uid =>
    let validHabits := s.habitInputs.filter (fun h => jsTrim h != "")
    if validHabits.length = 5 then
      let habitsToInsert := validHabits.map (fun name => (uid, jsTrim name))
      let newHabits : List HabitRow :=
        habitsToInsert.enum.map (fun p => ⟨genId p.1, p.2.1, p.2.2⟩)
      if ok then
        ({ s with habits := newHabits, tracker := [],
                  weekStartDate := getCurrentWeekStart today, isOnboarding := false },
         { r with habits := r.habits ++ newHabits },
         [RemoteOp.insertHabits habitsToInsert])
      else
        (s, r, [RemoteOp.insertHabits habitsToInsert])
    else
      (s, r, [])

/-- `resetWeek`: guard on `user`; delete the user's `habit_entries` rows,
then the user's `habits` rows; then (on success) re-enter onboarding with
empty habit list, empty tracker and 5 blank input slots.  On failure the
`catch` only logs and the local state is unchanged (a failed reset is
modelled as having no remote effect). -/
def resetWeek (ok : Bool) (s : AppState) (r : Remote) :
    AppState × Remote × List RemoteOp :=
  match s.user with
  | none => (s, r, [])
  | some uid =>
    let r' : Remote :=
      { r with entries := r.entries.filter (fun e => !(e.user_id == uid)),
               habits := r.habits.filter (fun h => !(h.user_id == uid)) }
    if ok then
      ({ s with isOnboarding := true, habits := [], tracker := [],
                habitInputs := ["", "", "", "", ""] },
       r', [RemoteOp.deleteEntriesByUser uid, RemoteOp.deleteHabitsByUser uid])
    else
      (s, r, [RemoteOp.deleteEntriesByUser uid, RemoteOp.deleteHabitsByUser uid])

/-- The `onAuthStateChange` handler in the no-session case (after
`signOut()` resolves): `setUser(null); setHabits([]); setTracker({});
setIsOnboarding(true)` — and nothing else.  (With a session it instead sets
the user and reloads habits, which no claim here needs.) -/
def authChangeNoSession (s : AppState) : AppState :=
  { s with user := none, habits := [], tracker := [], isOnboarding := true }

/-- `getWeeklyProgress`: `totalPossible = habits.length * 7`,
`totalCompleted` summed over habits and days from the tracker, the rounded
percentage when `totalPossible > 0`, else `0`. -/
def getWeeklyProgress (habits : List HabitRow) (tracker : Tracker) : Nat :=
  let totalPossible := habits.length * 7
  let totalCompleted := habits.foldl
    (fun sum habit => sum + DAYS.foldl
      (fun daySum day => daySum + (if trackerGet tracker habit.id day then 1 else 0)) 0) 0
  if totalPossible > 0 then jsRound (totalCompleted * 100) totalPossible else 0

/-- The per-habit record built inside `downloadStats`: habit name, the 7
day values as 0/1 (stored per day key, read back in `DAYS` order), their
sum, and `Math.round((total / 7) * 100)`. -/
structure StatData where
  habit : String
  dayVals : List Nat
  total : Nat
  percentage : Nat
deriving DecidableEq, Repr

/-- `downloadStats`: builds the per-habit stats, then the CSV text
(header `Habit,Monday,…,Sunday,Total,Percentage`, one comma-joined row per
habit, rows joined by newlines), and the download file name
`habit-tracker-{weekStartDate}.csv`.  Returns `(csvContent, fileName)`. -/
def downloadStats (habits : List HabitRow) (tracker : Tracker)
    (weekStartDate : Int) : String × String :=
  let stats := habits.map (fun habit =>
    let habitStats := DAYS.map (fun day => if trackerGet tracker habit.id day then 1 else 0)
    let total := habitStats.foldl (fun sum val => sum + val) 0
    ({ habit := habit.name, dayVals := habitStats, total := total,
       percentage := jsRound (total * 100) 7 } : StatData))
  let csvContent := String.intercalate "\n"
    ((String.intercalate "," (["Habit"] ++ DAYS ++ ["Total", "Percentage"])) ::
     stats.map (fun stat => String.intercalate ","
       ([stat.habit] ++ stat.dayVals.map toString ++
        [toString stat.total, toString stat.percentage ++ "%"])))
  (csvContent, "habit-tracker-" ++ toString weekStartDate ++ ".csv")

/-- `perHabitStats` as the spec describes it: for each habit, the completed
count is the number of days whose tracker cell is true and the percentage
is `round(100 * completedCount / 7)`.  Used as the comparison side of the
CSV round-trip claim. -/
def perHabitStats (habits : List HabitRow) (tracker : Tracker) :
    List (String × Nat × Nat) :=
  habits.map (fun h =>
    let completedCount := (DAYS.filter (fun d => trackerGet tracker h.id d)).length
    (h.name, completedCount, jsRound (100 * completedCount) 7))

/-- Total number of completed cells of the tracker over a habit list, as a
count (the specification's `completedCells`). -/
def completedCells (habits : List HabitRow) (tracker : Tracker) : Nat :=
  (habits.map (fun h => (DAYS.filter (fun d => trackerGet tracker h.id d)).length)).sum


/-! ## Helper lemmas -/

theorem lookupKey_setKey_self (l : List (String × α)) (k : String) (v : α) :
    lookupKey (setKey l k v) k = some v := by
  induction l with
  | nil => simp [setKey, lookupKey]
  | cons p rest ih =>
    obtain ⟨k', v'⟩ := p
    by_cases h : k' = k
    · simp [setKey, h, lookupKey]
    · simp [setKey, h, lookupKey, ih]

theorem trackerGet_setCell_self (t : Tracker) (h d : String) (v : Bool) :
    trackerGet (setCell t h d v) h d = v := by
  simp [trackerGet, setCell, lookupKey_setKey_self]

theorem filter_not_of_filter_eq_nil {l : List α} {p : α → Bool}
    (h : l.filter p = []) : l.filter (fun x => !(p x)) = l := by
  have h' := List.filter_eq_nil_iff.mp h
  apply List.filter_eq_self.mpr
  intro a ha
  simp [h' a ha]

theorem foldl_add_ite_count (l : List α) (p : α → Bool) (n : Nat) :
    l.foldl (fun acc x => acc + (if p x then 1 else 0)) n = n + (l.filter p).length := by
  induction l generalizing n with
  | nil => simp
  | cons a t ih =>
    cases h : p a
    · simp [h, ih, List.filter_cons]
    · simp [h, ih, List.filter_cons]
      omega

theorem foldl_add_sum (l : List α) (g : α → Nat) (n : Nat) :
    l.foldl (fun acc x => acc + g x) n = n + (l.map g).sum := by
  induction l generalizing n with
  | nil => simp
  | cons a t ih =>
    simp [ih]
    omega

theorem foldl_add_self (m : List Nat) (n : Nat) :
    m.foldl (fun acc x => acc + x) n = n + m.sum := by
  induction m generalizing n with
  | nil => simp
  | cons a t ih =>
    simp [ih]
    omega

theorem sum_indicator (l : List α) (p : α → Bool) :
    (l.map (fun x => if p x then (1 : Nat) else 0)).sum = (l.filter p).length := by
  induction l with
  | nil => simp
  | cons a t ih =>
    cases h : p a
    · simp [h, ih, List.filter_cons]
    · simp [h, ih, List.filter_cons]
      omega

theorem entryMatches_self (h uid : String) (date : Int) (c : Bool) :
    entryMatches ⟨h, uid, date, c⟩ h uid date = true := by
  simp [entryMatches]

/-! ## Sample states used by the witnesses -/

/-- A signed-in tracking-mode state with an empty tracker. -/
def wState : AppState :=
  { user := some "u", isOnboarding := false, habits := [], tracker := [],
    weekStartDate := 0, habitInputs := ["", "", "", "", ""] }

/-- A signed-in onboarding state with 5 filled input slots. -/
def wOnboardState : AppState :=
  { user := some "u", isOnboarding := true, habits := [], tracker := [],
    weekStartDate := 0, habitInputs := [" run ", "read", "cook", "walk", "sleep"] }

/-- A signed-out state. -/
def wNoUserState : AppState :=
  { user := none, isOnboarding := false, habits := [⟨"h1", "u", "Run"⟩],
    tracker := [("h1", [("Monday", true)])], weekStartDate := 0,
    habitInputs := ["", "", "", "", ""] }

/-- The empty remote store. -/
def wRemote : Remote := { habits := [], entries := [] }

/-- A remote store holding rows of two users. -/
def wRemoteMix : Remote :=
  { habits := [⟨"h1", "u", "Run"⟩, ⟨"h2", "v", "Read"⟩],
    entries := [⟨"h1", "u", 0, true⟩, ⟨"h2", "v", 1, true⟩] }

/-- A deterministic id generator standing for the store's generated ids. -/
def wGen : Nat → String := fun i => toString i

/-! ## C8: week start computation -/

/-- C8: if the current date is a Sunday (`getDay = 0`), `getCurrentWeekStart`
returns the Monday six days prior; in general it returns the most recent
Monday on or before the current date (a Monday, at most 6 days back).
Dates are day numbers standing for their ISO `yyyy-mm-dd` rendering. -/
theorem getCurrentWeekStart_spec (today : Int) :
    (getDay today = 0 → getCurrentWeekStart today = today - 6) ∧
    getDay (getCurrentWeekStart today) = 1 ∧
    getCurrentWeekStart today ≤ today ∧
    today - getCurrentWeekStart today < 7 := by
  unfold getCurrentWeekStart getDay
  split
  · omega
  · omega

/-- Witness for C8 at day number 3 (1970-01-04, a Sunday): the week start is
day −3 (1969-12-29, a Monday), six days prior. -/
theorem getCurrentWeekStart_spec_witness :
    (getDay 3 = 0 → getCurrentWeekStart 3 = 3 - 6) ∧
    getDay (getCurrentWeekStart 3) = 1 ∧
    getCurrentWeekStart 3 ≤ 3 ∧
    3 - getCurrentWeekStart 3 < 7 :=
  getCurrentWeekStart_spec 3

/-! ## C9: sign-out clears local state -/

/-- C9 counterexample: the no-session auth-change handler (the observable
effect of signing out) does not blank the habit input slots — a state whose
first input slot holds `"a"` keeps it after sign-out, contradicting the
claim that the 5 input slots return to blank. -/
theorem signout_inputs_counterexample :
    (authChangeNoSession
        { user := some "u", isOnboarding := true, habits := [], tracker := [],
          weekStartDate := 0, habitInputs := ["a", "", "", "", ""] }).habitInputs
      = ["a", "", "", "", ""] ∧
    (["a", "", "", "", ""] : List String) ≠ ["", "", "", "", ""] := by
  exact ⟨rfl, by decide⟩

/-- C9 amended: signing out (the auth-change event with no session) clears
the user, the habit list, the tracker view, and re-enters onboarding, but
leaves the habit input slots (and the week start) unchanged. -/
theorem authChange_signout_spec (s : AppState) :
    (authChangeNoSession s).user = none ∧
    (authChangeNoSession s).habits = [] ∧
    (authChangeNoSession s).tracker = [] ∧
    (authChangeNoSession s).isOnboarding = true ∧
    (authChangeNoSession s).habitInputs = s.habitInputs ∧
    (authChangeNoSession s).weekStartDate = s.weekStartDate := by
  simp [authChangeNoSession]

/-! ## C10: no-op without an authenticated user -/

/-- C10: with no authenticated user, `toggleHabit`, `handleOnboardingSubmit`
and `resetWeek` all return immediately: no remote operation is issued and
neither the local state nor the remote store changes. -/
theorem unauthenticated_noop (ok : Bool) (habitId day : String) (genId : Nat → String)
    (today : Int) (s : AppState) (r : Remote) (hu : s.user = none) :
    toggleHabit ok habitId day s r = (s, r, []) ∧
    handleOnboardingSubmit ok genId today s r = (s, r, []) ∧
    resetWeek ok s r = (s, r, []) := by
  unfold toggleHabit handleOnboardingSubmit resetWeek
  rw [hu]
  exact ⟨rfl, rfl, rfl⟩

/-- Witness for C10 at a concrete signed-out state. -/
theorem unauthenticated_noop_witness :
    wNoUserState.user = none ∧
    (toggleHabit true "h1" "Monday" wNoUserState wRemote = (wNoUserState, wRemote, []) ∧
     handleOnboardingSubmit true wGen 0 wNoUserState wRemote = (wNoUserState, wRemote, []) ∧
     resetWeek true wNoUserState wRemote = (wNoUserState, wRemote, [])) :=
  ⟨rfl, unauthenticated_noop true "h1" "Monday" wGen 0 wNoUserState wRemote rfl⟩

/-! ## C2: failed toggle leaves local state unchanged -/

/-- C2: when the remote delete/insert of `toggleHabit` fails, the local
state (in particular the tracker boolean) is completely unchanged; the
boolean flips exactly when the remote call resolves successfully.  (The
`catch` block only logs the error, which has no observable state effect.) -/
theorem toggle_failure_spec (habitId day uid : String) (s : AppState) (r : Remote)
    (hu : s.user = some uid) :
    (toggleHabit false habitId day s r).1 = s ∧
    (toggleHabit true habitId day s r).1.tracker
      = setCell s.tracker habitId day (!trackerGet s.tracker habitId day) := by
  unfold toggleHabit
  rw [hu]
  constructor
  · simp
  · simp

/-- Witness for C2 at a concrete signed-in state: the failed toggle leaves
the state untouched, the successful one flips the cell. -/
theorem toggle_failure_spec_witness :
    wState.user = some "u" ∧
    ((toggleHabit false "h1" "Monday" wState wRemote).1 = wState ∧
     (toggleHabit true "h1" "Monday" wState wRemote).1.tracker
       = setCell wState.tracker "h1" "Monday" (!trackerGet wState.tracker "h1" "Monday")) :=
  ⟨rfl, toggle_failure_spec "h1" "Monday" "u" wState wRemote rfl⟩

/-! ## C1: toggle parity -/

/-- Invariant of `n` serialized successful toggles of one cell, starting
from a cell that reads `false` and a remote store with no row for that
cell's key: the user and the week start never change, the cell reads the
parity of `n`, and the entry table is the original one, extended by exactly
the one completed row for the cell's key when `n` is odd. -/
theorem toggleN_invariant (n : Nat) (habitId day uid : String) (s : AppState) (r : Remote)
    (hu : s.user = some uid)
    (hc : trackerGet s.tracker habitId day = false)
    (he : r.entries.filter
        (fun e => entryMatches e habitId uid (s.weekStartDate + dayIndex day)) = []) :
    (toggleN n habitId day s r).1.user = some uid ∧
    (toggleN n habitId day s r).1.weekStartDate = s.weekStartDate ∧
    trackerGet (toggleN n habitId day s r).1.tracker habitId day = decide (n % 2 = 1) ∧
    (toggleN n habitId day s r).2.entries =
      (if n % 2 = 1
       then r.entries ++ [⟨habitId, uid, s.weekStartDate + dayIndex day, true⟩]
       else r.entries) ∧
    (toggleN n habitId day s r).2.habits = r.habits := by
  induction n with
  | zero =>
    refine ⟨hu, rfl, ?_, ?_, rfl⟩
    · simp [toggleN, hc]
    · simp [toggleN]
  | succ m ih =>
    obtain ⟨ihu, ihw, ihc, ihe, ihh⟩ := ih
    rcases Nat.mod_two_eq_zero_or_one m with hm | hm
    · have hm1 : (m + 1) % 2 = 1 := by omega
      have hcv : trackerGet (toggleN m habitId day s r).1.tracker habitId day = false := by
        rw [ihc]; simp [hm]
      have hee : (toggleN m habitId day s r).2.entries = r.entries := by
        rw [ihe]; simp [hm]
      simp only [toggleN, toggleHabit, ihu]
      simp [hcv, hm1, trackerGet_setCell_self, ihw, ihu, hee, ihh]
    · have hm1 : (m + 1) % 2 = 0 := by omega
      have hcv : trackerGet (toggleN m habitId day s r).1.tracker habitId day = true := by
        rw [ihc]; simp [hm]
      have hee : (toggleN m habitId day s r).2.entries
          = r.entries ++ [⟨habitId, uid, s.weekStartDate + dayIndex day, true⟩] := by
        rw [ihe]; simp [hm]
      have hr : r.entries.filter
          (fun e => !(entryMatches e habitId uid (s.weekStartDate + dayIndex day))) = r.entries :=
        filter_not_of_filter_eq_nil he
      simp only [toggleN, toggleHabit, ihu]
      simp [hcv, hm1, trackerGet_setCell_self, ihw, ihu, hee, ihh,
            List.filter_append, hr, entryMatches_self]

/-- C1: starting from a remote store with no row for the cell's key and a
tracker cell reading `false`, after `n` serialized toggles of the cell the
`habit_entries` table holds exactly one completed row keyed
`(habitId, uid, date-of-day)` when `n` is odd and zero such rows when `n`
is even; and two further consecutive toggles restore the remote store and
the local tracker cell exactly. -/
theorem toggle_parity_spec (n : Nat) (habitId day uid : String) (s : AppState) (r : Remote)
    (hu : s.user = some uid)
    (hc : trackerGet s.tracker habitId day = false)
    (he : entriesFor r habitId uid (s.weekStartDate + dayIndex day) = []) :
    (entriesFor (toggleN n habitId day s r).2 habitId uid (s.weekStartDate + dayIndex day)
       = (if n % 2 = 1
          then [⟨habitId, uid, s.weekStartDate + dayIndex day, true⟩]
          else [])) ∧
    trackerGet (toggleN n habitId day s r).1.tracker habitId day = decide (n % 2 = 1) ∧
    (toggleN (n + 2) habitId day s r).2 = (toggleN n habitId day s r).2 ∧
    trackerGet (toggleN (n + 2) habitId day s r).1.tracker habitId day
      = trackerGet (toggleN n habitId day s r).1.tracker habitId day := by
  have he' : r.entries.filter
      (fun e => entryMatches e habitId uid (s.weekStartDate + dayIndex day)) = [] := he
  obtain ⟨h1u, h1w, h1c, h1e, h1h⟩ := toggleN_invariant n habitId day uid s r hu hc he'
  obtain ⟨h2u, h2w, h2c, h2e, h2h⟩ := toggleN_invariant (n + 2) habitId day uid s r hu hc he'
  have hpar : (n + 2) % 2 = n % 2 := by omega
  refine ⟨?_, h1c, ?_, ?_⟩
  · unfold entriesFor
    rw [h1e]
    rcases Nat.mod_two_eq_zero_or_one n with hn | hn
    · simp [hn, he']
    · simp [hn, List.filter_append, he', entryMatches_self]
  · have hAB : ∀ (a b : Remote), a.habits = b.habits → a.entries = b.entries → a = b := by
      intro a b h1 h2
      cases a; cases b
      simp_all
    exact hAB _ _ (h2h.trans h1h.symm) (by rw [h2e, h1e, hpar])
  · rw [h1c, h2c, hpar]

/-- Witness for C1: three toggles of `("h1", "Monday")` from the empty
remote store leave exactly one completed row and a true cell; two more
toggles restore the store. -/
theorem toggle_parity_spec_witness :
    wState.user = some "u" ∧
    trackerGet wState.tracker "h1" "Monday" = false ∧
    entriesFor wRemote "h1" "u" (wState.weekStartDate + dayIndex "Monday") = [] ∧
    ((entriesFor (toggleN 3 "h1" "Monday" wState wRemote).2 "h1" "u"
        (wState.weekStartDate + dayIndex "Monday")
        = (if 3 % 2 = 1
           then [⟨"h1", "u", wState.weekStartDate + dayIndex "Monday", true⟩]
           else [])) ∧
     trackerGet (toggleN 3 "h1" "Monday" wState wRemote).1.tracker "h1" "Monday"
       = decide (3 % 2 = 1) ∧
     (toggleN (3 + 2) "h1" "Monday" wState wRemote).2 = (toggleN 3 "h1" "Monday" wState wRemote).2 ∧
     trackerGet (toggleN (3 + 2) "h1" "Monday" wState wRemote).1.tracker "h1" "Monday"
       = trackerGet (toggleN 3 "h1" "Monday" wState wRemote).1.tracker "h1" "Monday") :=
  ⟨rfl, rfl, rfl, toggle_parity_spec 3 "h1" "Monday" "u" wState wRemote rfl rfl rfl⟩

/-! ## C3: onboarding submission -/

/-- The names of habit rows returned by the store for an insert batch: one
row per insert, with generated ids, in batch order. -/
theorem insertRows_names (genId : Nat → String) (rows : List (String × String)) :
    ((rows.enum.map (fun p => (⟨genId p.1, p.2.1, p.2.2⟩ : HabitRow))).map HabitRow.name)
      = rows.map Prod.snd := by
  rw [List.map_map]
  have : ∀ (n : Nat),
      ((rows.enumFrom n).map (HabitRow.name ∘ fun p => (⟨genId p.1, p.2.1, p.2.2⟩ : HabitRow)))
        = rows.map Prod.snd := by
    induction rows with
    | nil => intro n; rfl
    | cons a t ih => intro n; simp [List.enumFrom, ih]
  exact this 0

/-- C3: with an authenticated user and 5 input slots, a submission whose 5
slots are all non-empty after trimming inserts exactly 5 habit rows with
the trimmed names in one batch, replaces the local habit list with the rows
returned by the store, clears the tracker, and exits onboarding; a
submission with fewer than 5 non-empty names changes nothing and issues no
remote operation. -/
theorem onboarding_submit_spec (genId : Nat → String) (today : Int) (s : AppState)
    (r : Remote) (uid : String) (hu : s.user = some uid)
    (_hlen : s.habitInputs.length = 5) :
    ((s.habitInputs.filter (fun h => jsTrim h != "")).length = 5 →
      (handleOnboardingSubmit true genId today s r).1.habits.map HabitRow.name
          = (s.habitInputs.filter (fun h => jsTrim h != "")).map jsTrim ∧
      (handleOnboardingSubmit true genId today s r).1.habits.length = 5 ∧
      (handleOnboardingSubmit true genId today s r).1.tracker = [] ∧
      (handleOnboardingSubmit true genId today s r).1.isOnboarding = false ∧
      (handleOnboardingSubmit true genId today s r).2.1.habits
          = r.habits ++ (handleOnboardingSubmit true genId today s r).1.habits ∧
      (handleOnboardingSubmit true genId today s r).2.1.entries = r.entries ∧
      (handleOnboardingSubmit true genId today s r).2.2
          = [RemoteOp.insertHabits
              ((s.habitInputs.filter (fun h => jsTrim h != "")).map (fun n => (uid, jsTrim n)))]) ∧
    ((s.habitInputs.filter (fun h => jsTrim h != "")).length < 5 →
      handleOnboardingSubmit true genId today s r = (s, r, [])) := by
  constructor
  · intro hval
    simp only [handleOnboardingSubmit, hu]
    rw [if_pos hval]
    simp only [if_true]
    refine ⟨?_, ?_, trivial, trivial, trivial, trivial, trivial⟩
    · have h1 := insertRows_names genId
        ((s.habitInputs.filter (fun h => jsTrim h != "")).map (fun name => (uid, jsTrim name)))
      have h2 : ((s.habitInputs.filter (fun h => jsTrim h != "")).map
          (fun name => (uid, jsTrim name))).map Prod.snd
          = (s.habitInputs.filter (fun h => jsTrim h != "")).map jsTrim := by
        simp [List.map_map]
      exact h1.trans h2
    · have h3 : ((((s.habitInputs.filter (fun h => jsTrim h != "")).map
          (fun name => (uid, jsTrim name))).enum.map
          (fun p => (⟨genId p.1, p.2.1, p.2.2⟩ : HabitRow)))).length = 5 := by
        simp [List.enum_length, hval]
      exact h3
  · intro hlt
    have hne : (s.habitInputs.filter (fun h => jsTrim h != "")).length ≠ 5 := by omega
    simp only [handleOnboardingSubmit, hu]
    rw [if_neg hne]

/-- Witness for C3 at a concrete submission with 5 non-empty slots. -/
theorem onboarding_submit_spec_witness :
    wOnboardState.user = some "u" ∧
    wOnboardState.habitInputs.length = 5 ∧
    (((wOnboardState.habitInputs.filter (fun h => jsTrim h != "")).length = 5 →
      (handleOnboardingSubmit true wGen 0 wOnboardState wRemote).1.habits.map HabitRow.name
          = (wOnboardState.habitInputs.filter (fun h => jsTrim h != "")).map jsTrim ∧
      (handleOnboardingSubmit true wGen 0 wOnboardState wRemote).1.habits.length = 5 ∧
      (handleOnboardingSubmit true wGen 0 wOnboardState wRemote).1.tracker = [] ∧
      (handleOnboardingSubmit true wGen 0 wOnboardState wRemote).1.isOnboarding = false ∧
      (handleOnboardingSubmit true wGen 0 wOnboardState wRemote).2.1.habits
          = wRemote.habits ++ (handleOnboardingSubmit true wGen 0 wOnboardState wRemote).1.habits ∧
      (handleOnboardingSubmit true wGen 0 wOnboardState wRemote).2.1.entries = wRemote.entries ∧
      (handleOnboardingSubmit true wGen 0 wOnboardState wRemote).2.2
          = [RemoteOp.insertHabits
              ((wOnboardState.habitInputs.filter (fun h => jsTrim h != "")).map
                (fun n => ("u", jsTrim n)))]) ∧
     ((wOnboardState.habitInputs.filter (fun h => jsTrim h != "")).length < 5 →
      handleOnboardingSubmit true wGen 0 wOnboardState wRemote
        = (wOnboardState, wRemote, []))) :=
  ⟨rfl, rfl, onboarding_submit_spec wGen 0 wOnboardState wRemote "u" rfl rfl⟩

/-! ## C7: reset week -/

/-- C7: with an authenticated user, `resetWeek` issues the delete of the
user's entry rows and then of the user's habit rows (in that order), after
which both tables hold zero rows for that user, and the local state is back
to onboarding with an empty habit list, an empty tracker, and 5 blank input
slots. -/
theorem resetWeek_spec (uid : String) (s : AppState) (r : Remote)
    (hu : s.user = some uid) :
    (resetWeek true s r).2.1.entries.filter (fun e => e.user_id == uid) = [] ∧
    (resetWeek true s r).2.1.habits.filter (fun h => h.user_id == uid) = [] ∧
    (resetWeek true s r).2.2
      = [RemoteOp.deleteEntriesByUser uid, RemoteOp.deleteHabitsByUser uid] ∧
    (resetWeek true s r).1.isOnboarding = true ∧
    (resetWeek true s r).1.habits = [] ∧
    (resetWeek true s r).1.tracker = [] ∧
    (resetWeek true s r).1.habitInputs = ["", "", "", "", ""] := by
  simp only [resetWeek, hu]
  refine ⟨?_, ?_, rfl, rfl, rfl, rfl, rfl⟩
  · apply List.filter_eq_nil_iff.mpr
    intro e he
    have := (List.mem_filter.mp he).2
    simp_all
  · apply List.filter_eq_nil_iff.mpr
    intro h hh
    have := (List.mem_filter.mp hh).2
    simp_all

/-- Witness for C7 on a store holding rows of two users. -/
theorem resetWeek_spec_witness :
    wState.user = some "u" ∧
    ((resetWeek true wState wRemoteMix).2.1.entries.filter (fun e => e.user_id == "u") = [] ∧
     (resetWeek true wState wRemoteMix).2.1.habits.filter (fun h => h.user_id == "u") = [] ∧
     (resetWeek true wState wRemoteMix).2.2
       = [RemoteOp.deleteEntriesByUser "u", RemoteOp.deleteHabitsByUser "u"] ∧
     (resetWeek true wState wRemoteMix).1.isOnboarding = true ∧
     (resetWeek true wState wRemoteMix).1.habits = [] ∧
     (resetWeek true wState wRemoteMix).1.tracker = [] ∧
     (resetWeek true wState wRemoteMix).1.habitInputs = ["", "", "", "", ""]) :=
  ⟨rfl, resetWeek_spec "u" wState wRemoteMix rfl⟩

/-! ## C4: weekly progress -/

/-- A single-habit list used to refute the `5 * 7` denominator. -/
def cHabit1 : List HabitRow := [⟨"h1", "u", "Run"⟩]

/-- A tracker in which that habit is completed on all 7 days. -/
def cTrackerFull : Tracker :=
  [("h1", [("Monday", true), ("Tuesday", true), ("Wednesday", true), ("Thursday", true),
           ("Friday", true), ("Saturday", true), ("Sunday", true)])]

/-- C4 counterexample: with one habit completed on all 7 days,
`getWeeklyProgress` returns 100 (the code divides by `habits.length * 7`),
while the claim's formula `round(100 * completedCells / (5 * 7))` gives 20. -/
theorem weeklyProgress_counterexample :
    getWeeklyProgress cHabit1 cTrackerFull = 100 ∧
    jsRound (100 * completedCells cHabit1 cTrackerFull) (5 * 7) = 20 ∧
    getWeeklyProgress cHabit1 cTrackerFull
      ≠ jsRound (100 * completedCells cHabit1 cTrackerFull) (5 * 7) := by
  refine ⟨by decide, by decide, by decide⟩

/-- `jsRound (c * 100) t ≤ 100` whenever `c ≤ t` and `t > 0`. -/
theorem jsRound_le_100 (c t : Nat) (hct : c ≤ t) (ht : 0 < t) :
    jsRound (c * 100) t ≤ 100 := by
  unfold jsRound
  have h2 : 0 < 2 * t := by omega
  have hlt : (2 * (c * 100) + t) / (2 * t) < 101 := by
    rw [Nat.div_lt_iff_lt_mul h2]
    omega
  omega

/-- The code's nested fold equals the completed-cell count. -/
theorem weekly_total_eq (habits : List HabitRow) (tracker : Tracker) :
    habits.foldl
      (fun sum habit => sum + DAYS.foldl
        (fun daySum day => daySum + (if trackerGet tracker habit.id day then 1 else 0)) 0) 0
      = completedCells habits tracker := by
  simp only [foldl_add_ite_count, Nat.zero_add]
  rw [foldl_add_sum]
  simp [completedCells]

/-- Each habit contributes at most 7 completed cells. -/
theorem completedCells_le (habits : List HabitRow) (tracker : Tracker) :
    completedCells habits tracker ≤ habits.length * 7 := by
  unfold completedCells
  induction habits with
  | nil => simp
  | cons a t ih =>
    simp only [List.map_cons, List.sum_cons, List.length_cons]
    have hd : ((DAYS.filter (fun d => trackerGet tracker a.id d)).length) ≤ 7 := by
      have h1 := List.length_filter_le (fun d => trackerGet tracker a.id d) DAYS
      simpa [DAYS] using h1
    omega

/-- C4 amended: `weeklyProgress()` is always an integer in `[0, 100]` and
equals `0` (not a division error) when the habit list is empty; when at
least one habit exists it equals
`round(100 * completedCells / (habits.length * 7))` — the denominator is
the actual habit count times 7, not the claimed `5 * 7`. -/
theorem weeklyProgress_spec (habits : List HabitRow) (tracker : Tracker) :
    getWeeklyProgress habits tracker ≤ 100 ∧
    (habits = [] → getWeeklyProgress habits tracker = 0) ∧
    (habits ≠ [] →
      getWeeklyProgress habits tracker
        = jsRound (100 * completedCells habits tracker) (habits.length * 7)) := by
  by_cases hh : habits = []
  · subst hh
    refine ⟨by simp [getWeeklyProgress], fun _ => by simp [getWeeklyProgress], ?_⟩
    intro hne
    exact absurd rfl hne
  · have hlen : 0 < habits.length := List.length_pos.mpr hh
    have hpos : 0 < habits.length * 7 := by omega
    have hle := completedCells_le habits tracker
    simp only [getWeeklyProgress, weekly_total_eq]
    rw [if_pos hpos]
    refine ⟨jsRound_le_100 _ _ ?_ hpos, fun habs => absurd habs hh, fun _ => ?_⟩
    · exact hle
    · rw [Nat.mul_comm]

/-- Witness for C4 at a one-habit, all-complete tracker: progress is 100,
within bounds, and matches the corrected denominator `1 * 7`. -/
theorem weeklyProgress_spec_witness :
    getWeeklyProgress cHabit1 cTrackerFull ≤ 100 ∧
    (cHabit1 = [] → getWeeklyProgress cHabit1 cTrackerFull = 0) ∧
    (cHabit1 ≠ [] →
      getWeeklyProgress cHabit1 cTrackerFull
        = jsRound (100 * completedCells cHabit1 cTrackerFull) (cHabit1.length * 7)) :=
  weeklyProgress_spec cHabit1 cTrackerFull

/-! ## C5: tracker shape invariant -/

/-- C5 counterexample: immediately after a successful onboarding
submission the component sets `tracker = {}`: onboarding is complete and 5
habits exist, yet the tracker view has zero habit keys, not one key per
habit. -/
theorem tracker_invariant_counterexample :
    (handleOnboardingSubmit true wGen 0 wOnboardState wRemote).1.isOnboarding = false ∧
    (handleOnboardingSubmit true wGen 0 wOnboardState wRemote).1.habits.length = 5 ∧
    (handleOnboardingSubmit true wGen 0 wOnboardState wRemote).1.tracker = [] := by
  refine ⟨by decide, by decide, by decide⟩

/-- Looking up `key a` in the association list `l.map (fun x => (key x, f x))`
finds `f a` when the keys are distinct and `a ∈ l`. -/
theorem lookupKey_map (l : List α) (key : α → String) (f : α → β) (a : α)
    (hnd : (l.map key).Nodup) (ha : a ∈ l) :
    lookupKey (l.map (fun x => (key x, f x))) (key a) = some (f a) := by
  induction l with
  | nil => cases ha
  | cons b t ih =>
    rw [List.map_cons, List.nodup_cons] at hnd
    obtain ⟨hbn, hndt⟩ := hnd
    simp only [List.map_cons, lookupKey]
    by_cases hb : key b = key a
    · rw [if_pos hb]
      rcases List.mem_cons.mp ha with rfl | hat
      · rfl
      · exact absurd (hb.symm ▸ List.mem_map_of_mem key hat) hbn
    · rw [if_neg hb]
      rcases List.mem_cons.mp ha with rfl | hat
      · exact absurd rfl hb
      · exact ih hndt hat

/-- C5 amended: the full-shape invariant holds for the tracker that
`loadHabitEntries` builds: one key per loaded habit (in order), each habit
key carrying exactly the 7 day names Monday…Sunday, with the cell value
taken from the matching entry and `false` when none matches.  (Immediately
after a successful onboarding submission, by contrast, the tracker is the
empty map — see the counterexample — and every lookup merely defaults to
`false`.) -/
theorem buildTracker_spec (hs : List HabitRow) (w : Int) (es : List EntryRow)
    (hnd : (hs.map HabitRow.id).Nodup) :
    ((buildTracker hs w es).map Prod.fst = hs.map HabitRow.id) ∧
    (∀ p ∈ buildTracker hs w es, p.2.map Prod.fst = DAYS) ∧
    (∀ h ∈ hs, ∀ q ∈ DAYS.enum,
      trackerGet (buildTracker hs w es) h.id q.2
        = ((es.find? (fun e => e.habit_id == h.id && e.date == w + (q.1 : Int))).map
            (fun e => e.completed)).getD false) := by
  refine ⟨?_, ?_, ?_⟩
  · simp [buildTracker, List.map_map, Function.comp]
  · intro p hp
    simp only [buildTracker, List.mem_map] at hp
    obtain ⟨habit, hhab, rfl⟩ := hp
    simp only [List.map_map]
    have hcomp : (Prod.fst ∘ fun p : Nat × String =>
        (p.2, ((es.find?
            (fun e => e.habit_id == habit.id && e.date == w + (p.1 : Int))).map
          (fun e => e.completed)).getD false)) = Prod.snd := by
      funext p
      rfl
    rw [hcomp, List.enum_map_snd]
  · intro h hh q hq
    have hl : lookupKey (buildTracker hs w es) h.id
        = some (DAYS.enum.map (fun p =>
            (p.2, ((es.find?
                (fun e => e.habit_id == h.id && e.date == w + (p.1 : Int))).map
              (fun e => e.completed)).getD false))) :=
      lookupKey_map hs HabitRow.id _ h hnd hh
    have hdn : (DAYS.enum.map Prod.snd).Nodup := by
      rw [List.enum_map_snd]
      decide
    have hinner := lookupKey_map DAYS.enum Prod.snd
      (fun p => ((es.find?
          (fun e => e.habit_id == h.id && e.date == w + (p.1 : Int))).map
        (fun e => e.completed)).getD false) q hdn hq
    simp only [trackerGet, hl, hinner]
    simp

/-- Two habits with distinct ids and one stored entry. -/
def wHabits2 : List HabitRow := [⟨"h1", "u", "Run"⟩, ⟨"h2", "u", "Read"⟩]

/-- One completed entry on Wednesday (day offset 2) of week 0. -/
def wEntries1 : List EntryRow := [⟨"h1", "u", 2, true⟩]

/-- Witness for C5's amended invariant on a concrete load. -/
theorem buildTracker_spec_witness :
    (wHabits2.map HabitRow.id).Nodup ∧
    (((buildTracker wHabits2 0 wEntries1).map Prod.fst = wHabits2.map HabitRow.id) ∧
     (∀ p ∈ buildTracker wHabits2 0 wEntries1, p.2.map Prod.fst = DAYS) ∧
     (∀ h ∈ wHabits2, ∀ q ∈ DAYS.enum,
       trackerGet (buildTracker wHabits2 0 wEntries1) h.id q.2
         = ((wEntries1.find? (fun e => e.habit_id == h.id && e.date == 0 + (q.1 : Int))).map
             (fun e => e.completed)).getD false)) :=
  ⟨by decide, buildTracker_spec wHabits2 0 wEntries1 (by decide)⟩

/-! ## C6: CSV export -/

/-- Zipping a list with its own image under `g`. -/
theorem zipWith_map_self (f : α → β → γ) (g : α → β) (l : List α) :
    List.zipWith f l (l.map g) = l.map (fun a => f a (g a)) := by
  induction l with
  | nil => rfl
  | cons a t ih => simp [ih]

theorem toString_nat_one : toString (1 : Nat) = "1" := rfl

theorem toString_nat_zero : toString (0 : Nat) = "0" := rfl

/-- Rendering the 0/1 day values equals rendering the booleans directly. -/
theorem map_toString_indicator (l : List String) (p : String → Bool) :
    (l.map (fun d => if p d then (1 : Nat) else 0)).map toString
      = l.map (fun d => if p d then "1" else "0") := by
  induction l with
  | nil => rfl
  | cons a t ih =>
    cases h : p a <;> simp [h, ih, toString_nat_one, toString_nat_zero]

/-- The fold of the 0/1 day values equals the completed-day count. -/
theorem stat_total_eq (tracker : Tracker) (h : HabitRow) :
    (DAYS.map (fun day => if trackerGet tracker h.id day then (1 : Nat) else 0)).foldl
      (fun sum val => sum + val) 0
      = (DAYS.filter (fun d => trackerGet tracker h.id d)).length := by
  rw [foldl_add_self]
  simp [sum_indicator]

/-- C6: the CSV text built by `downloadStats` is exactly the header row
`Habit,Monday,…,Sunday,Total,Percentage` followed by one row per habit
whose 0/1 day values come from the tracker grid and whose `Total` and
`Percentage` fields are the `perHabitStats` values (`"{percentage}%"`),
and the download file name is `habit-tracker-{weekStartDate}.csv`. -/
theorem downloadStats_spec (habits : List HabitRow) (tracker : Tracker) (w : Int) :
    (downloadStats habits tracker w).1
      = String.intercalate "\n"
          ("Habit,Monday,Tuesday,Wednesday,Thursday,Friday,Saturday,Sunday,Total,Percentage" ::
           List.zipWith
             (fun h st => String.intercalate ","
               ([st.1] ++ DAYS.map (fun d => if trackerGet tracker h.id d then "1" else "0") ++
                [toString st.2.1, toString st.2.2 ++ "%"]))
             habits (perHabitStats habits tracker)) ∧
    (downloadStats habits tracker w).2 = "habit-tracker-" ++ toString w ++ ".csv" := by
  constructor
  · simp only [downloadStats, perHabitStats]
    rw [zipWith_map_self, List.map_map]
    refine congrArg (String.intercalate "\n") ?_
    refine congrArg₂ List.cons (by decide) ?_
    apply List.map_congr_left
    intro h _
    simp only [Function.comp]
    rw [map_toString_indicator, stat_total_eq]
    rw [Nat.mul_comm ((DAYS.filter (fun d => trackerGet tracker h.id d)).length) 100]
  · rfl

end HabitsTracker
